import Mathlib

/-!
Verification development for the BiliClaw harvesting pipeline.

Each section embeds one component of the source (rate limiter, WBI signer,
cookie pool, progress store, retry wrapper, crawler workers) as executable
Lean definitions, translated from the Python sources under `spider/` and
`spider-py/`.  Machine floats from the source are modelled as rationals;
wall-clock time is modelled by explicit `elapsed` parameters; concurrent
mutation during a sleep is modelled by an explicit state transformer.
-/

namespace BiliClaw

/-! ## Rate limiter (`spider/rate_limiter.py` and `spider-py/rate_limiter.py`) -/

/-- State of a `TokenBucket` (fields `rate`, `capacity`, `tokens`; the
`last_time` field of the source is folded into the explicit `elapsed`
arguments of `refill`). -/
structure TokenBucket where
  rate : ℚ
  capacity : ℚ
  tokens : ℚ
deriving DecidableEq

/-- `TokenBucket._refill`: `tokens = min(capacity, tokens + elapsed * rate)`. -/
def TokenBucket.refill (s : TokenBucket) (elapsed : ℚ) : TokenBucket :=
  { s with tokens := min s.capacity (s.tokens + elapsed * s.rate) }

/-- `TokenBucket.set_rate`: refill, then mutate `rate`. -/
def TokenBucket.setRate (s : TokenBucket) (elapsed r : ℚ) : TokenBucket :=
  { s.refill elapsed with rate := r }

/-- `TokenBucket.acquire` of the `spider/` variant.  `e1` is the elapsed time
at the first refill; if the fast path fails and `blocking` holds, the thread
sleeps: `concurrent` is whatever other threads do to the bucket during the
sleep (e.g. `setRate`), `e2` the elapsed time at the second refill.  After the
sleep the source deducts unconditionally (`self.tokens -= tokens; return True`)
without re-checking. -/
def TokenBucket.acquireSpider (s : TokenBucket) (n : ℚ) (blocking : Bool)
    (e1 : ℚ) (concurrent : TokenBucket → TokenBucket) (e2 : ℚ) : Bool × TokenBucket :=
  let s1 := s.refill e1
  if n ≤ s1.tokens then (true, { s1 with tokens := s1.tokens - n })
  else if blocking = false then (false, s1)
  else
    let s2 := (concurrent s1).refill e2
    (true, { s2 with tokens := s2.tokens - n })

/-- `TokenBucket.acquire` of the `spider-py/` variant: a `while True` loop that
refills, checks, and re-sleeps when the refill still does not cover `n`.
`env i` gives the elapsed time at iteration `i`'s refill and the concurrent
`set_rate` call (elapsed, new rate) interleaved during iteration `i`'s sleep,
if any.  `fuel` bounds the number of iterations; `none` means the loop was
still running when the fuel ran out. -/
def TokenBucket.acquireLoop (n : ℚ) (blocking : Bool) (env : Nat → ℚ × Option (ℚ × ℚ)) :
    Nat → Nat → TokenBucket → Option (Bool × TokenBucket)
  | 0, _, _ => none
  | fuel + 1, i, s =>
    let s1 := s.refill (env i).1
    if n ≤ s1.tokens then some (true, { s1 with tokens := s1.tokens - n })
    else if blocking = false then some (false, s1)
    else
      let s2 := match (env i).2 with
        | none => s1
        | some (e, r) => s1.setRate e r
      TokenBucket.acquireLoop n blocking env fuel (i + 1) s2

/-- The `spider-py/` loop variant never leaves a negative balance on a
successful blocking acquire: it deducts only after the refilled balance
covers the request. -/
theorem acquireLoop_true_nonneg (n : ℚ) (blocking : Bool)
    (env : Nat → ℚ × Option (ℚ × ℚ)) (fuel i : Nat) (s : TokenBucket)
    (s' : TokenBucket) (h : TokenBucket.acquireLoop n blocking env fuel i s = some (true, s')) :
    0 ≤ s'.tokens := by
  induction fuel generalizing i s with
  | zero => simp [TokenBucket.acquireLoop] at h
  | succ fuel ih =>
    rw [TokenBucket.acquireLoop] at h
    by_cases h1 : n ≤ (s.refill (env i).1).tokens
    · rw [if_pos h1] at h
      cases h
      simpa using sub_nonneg.mpr h1
    · rw [if_neg h1] at h
      by_cases h2 : blocking = false
      · rw [if_pos h2] at h
        cases h
      · rw [if_neg h2] at h
        exact ih _ _ h

/-- C1: the claim says a blocking `acquire` retries the check in a loop and
never drives the token count negative, even if the rate is reduced
concurrently during the sleep.  The `spider/` variant contradicts this: with
`rate=2, capacity=5, tokens=0`, a blocking `acquire(1)` computes `wait=0.5`,
and if `set_rate(0.1)` runs during the sleep, the second refill yields only
`0.05` tokens, yet the code deducts unconditionally, leaving
`tokens = -19/20 < 0`. -/
theorem acquireSpider_negative_tokens :
    ((TokenBucket.mk 2 5 0).acquireSpider 1 true 0
      (fun t => t.setRate 0 (1/10)) (1/2)).2.tokens = -19/20 ∧
    ((TokenBucket.mk 2 5 0).acquireSpider 1 true 0
      (fun t => t.setRate 0 (1/10)) (1/2)).2.tokens < 0 := by
  constructor <;> norm_num [TokenBucket.acquireSpider, TokenBucket.refill, TokenBucket.setRate]

/-! ## Cookie pool (`spider/cookie_pool.py`) -/

/-- A `CookieItem` dataclass: opaque cookie `value`, display `name`,
`enabled`/`is_valid` flags, `fail_count`, `max_fails` threshold. -/
structure CookieItem where
  value : String
  name : String
  enabled : Bool
  is_valid : Bool
  fail_count : Nat
  max_fails : Nat
deriving DecidableEq

/-- `CookieItem.mark_failed`: increment `fail_count`; when it reaches
`max_fails`, clear `is_valid`.  Returns the updated item and whether it was
disabled. -/
def CookieItem.markFailed (c : CookieItem) : CookieItem × Bool :=
  let c1 : CookieItem := { c with fail_count := c.fail_count + 1 }
  if c1.max_fails ≤ c1.fail_count then ({ c1 with is_valid := false }, true)
  else (c1, false)

/-- `CookiePool` state: the `_cookies` list, the round-robin `_index` cursor,
and the `_strategy` string. -/
structure CookiePool where
  cookies : List CookieItem
  index : Nat
  strategy : String
deriving DecidableEq

/-- The `available` sublist computed inside `get_cookie`:
`[c for c in self._cookies if c.enabled and c.is_valid]`. -/
def availableCookies (l : List CookieItem) : List CookieItem :=
  l.filter fun c => c.enabled && c.is_valid

/-- Placeholder item for out-of-range `getD` reads (never reached: every
lookup index is reduced modulo the list length). -/
def dummyCookie : CookieItem := ⟨"", "", true, true, 0, 3⟩

/-- `CookiePool.get_cookie`.  `random.choice(available)` of the `"random"`
strategy is modelled by an explicit `rand` oracle indexing the available
list; the round-robin branch reads `available[_index % len]` and then
increments the cursor. -/
def CookiePool.getCookie (p : CookiePool) (rand : Nat) : Option String × CookiePool :=
  let avail := availableCookies p.cookies
  if avail.isEmpty then (none, p)
  else if p.strategy = "random" then
    (some (avail.getD (rand % avail.length) dummyCookie).value, p)
  else
    let i := p.index % avail.length
    (some (avail.getD i dummyCookie).value, { p with index := i + 1 })

/-- `CookiePool.get_cookie_item`: same selection as `get_cookie` but returns
the `CookieItem` itself. -/
def CookiePool.getCookieItem (p : CookiePool) (rand : Nat) : Option CookieItem × CookiePool :=
  let avail := availableCookies p.cookies
  if avail.isEmpty then (none, p)
  else if p.strategy = "random" then
    (some (avail.getD (rand % avail.length) dummyCookie), p)
  else
    let i := p.index % avail.length
    (some (avail.getD i dummyCookie), { p with index := i + 1 })

/-- The body of `CookiePool.mark_invalid`'s `for ... break` loop: update the
first item whose `value` matches, leave the rest untouched. -/
def markInvalidList (l : List CookieItem) (v : String) (permanent : Bool) : List CookieItem :=
  match l with
  | [] => []
  | c :: rest =>
    if c.value = v then
      (if permanent then { c with is_valid := false, enabled := false }
       else (c.markFailed).1) :: rest
    else c :: markInvalidList rest v permanent

/-- `CookiePool.mark_invalid`. -/
def CookiePool.markInvalid (p : CookiePool) (v : String) (permanent : Bool) : CookiePool :=
  { p with cookies := markInvalidList p.cookies v permanent }

/-- The single-item update performed by `mark_invalid` on the matching item. -/
def markOne (permanent : Bool) (c : CookieItem) : CookieItem :=
  if permanent then { c with is_valid := false, enabled := false } else (c.markFailed).1

theorem markInvalidList_no_match (l : List CookieItem) (v : String) (perm : Bool)
    (h : ∀ c ∈ l, c.value ≠ v) : markInvalidList l v perm = l := by
  induction l with
  | nil => rfl
  | cons c rest ih =>
    rw [markInvalidList, if_neg (h c (List.mem_cons_self c rest))]
    rw [ih fun x hx => h x (List.mem_cons_of_mem c hx)]

theorem markOne_value (perm : Bool) (c : CookieItem) : (markOne perm c).value = c.value := by
  unfold markOne CookieItem.markFailed
  split
  · rfl
  · dsimp only
    split <;> rfl

/-- With pairwise-distinct values, the first-match `break` loop coincides with
a pointwise map. -/
theorem markInvalidList_eq_map (l : List CookieItem) (v : String) (perm : Bool)
    (h : (l.map CookieItem.value).Nodup) :
    markInvalidList l v perm = l.map fun c => if c.value = v then markOne perm c else c := by
  induction l with
  | nil => rfl
  | cons c rest ih =>
    simp only [List.map_cons, List.nodup_cons] at h
    by_cases hc : c.value = v
    · rw [markInvalidList, if_pos hc, List.map_cons, if_pos hc]
      have hrest : rest.map (fun c => if c.value = v then markOne perm c else c) = rest := by
        have : ∀ x ∈ rest, (if x.value = v then markOne perm x else x) = x := by
          intro x hx
          rw [if_neg]
          intro hxv
          exact h.1 (hc ▸ hxv ▸ List.mem_map_of_mem CookieItem.value hx)
        calc rest.map (fun c => if c.value = v then markOne perm c else c)
            = rest.map id := List.map_congr_left this
          _ = rest := List.map_id rest
      rw [hrest, markOne]
    · rw [markInvalidList, if_neg hc, List.map_cons, if_neg hc, ih h.2]

theorem markOneFalse_fields (c : CookieItem) :
    (markOne false c).fail_count = c.fail_count + 1 ∧
    (markOne false c).value = c.value ∧
    (markOne false c).enabled = c.enabled ∧
    (markOne false c).max_fails = c.max_fails := by
  unfold markOne CookieItem.markFailed
  simp only [Bool.false_eq_true, if_false]
  split
  · exact ⟨rfl, rfl, rfl, rfl⟩
  · exact ⟨rfl, rfl, rfl, rfl⟩

theorem markOneFalse_is_valid (c : CookieItem) (h : c.max_fails ≤ c.fail_count + 1) :
    (markOne false c).is_valid = false := by
  unfold markOne CookieItem.markFailed
  simp only [Bool.false_eq_true, if_false]
  split
  · rfl
  · rename_i hcon
    exact absurd h (by simpa using hcon)

theorem markOne_iter_fields (m : Nat) (c : CookieItem) :
    ((markOne false)^[m] c).fail_count = c.fail_count + m ∧
    ((markOne false)^[m] c).value = c.value ∧
    ((markOne false)^[m] c).enabled = c.enabled ∧
    ((markOne false)^[m] c).max_fails = c.max_fails := by
  induction m with
  | zero => simp
  | succ m ih =>
    rw [Function.iterate_succ_apply']
    obtain ⟨h1, h2, h3, h4⟩ := markOneFalse_fields ((markOne false)^[m] c)
    refine ⟨?_, by rw [h2, ih.2.1], by rw [h3, ih.2.2.1], by rw [h4, ih.2.2.2]⟩
    rw [h1, ih.1]
    omega

theorem markOne_iter_invalid (m : Nat) (c : CookieItem) (h1 : 1 ≤ m)
    (h2 : c.max_fails ≤ c.fail_count + m) : ((markOne false)^[m] c).is_valid = false := by
  obtain ⟨m', rfl⟩ : ∃ m', m = m' + 1 := ⟨m - 1, by omega⟩
  rw [Function.iterate_succ_apply']
  apply markOneFalse_is_valid
  obtain ⟨hc, _, _, hm⟩ := markOne_iter_fields m' c
  rw [hc, hm]
  omega

theorem markOne_iter_value (m : Nat) (c : CookieItem) :
    ((markOne false)^[m] c).value = c.value := (markOne_iter_fields m c).2.1

/-- Iterating `mark_invalid(v, permanent=False)` on a pool with
pairwise-distinct cookie values updates the matching item pointwise and
leaves the cursor, strategy and all other items unchanged. -/
theorem markInvalid_false_iterate (p : CookiePool) (v : String) (m : Nat)
    (hnd : (p.cookies.map CookieItem.value).Nodup) :
    (fun q => CookiePool.markInvalid q v false)^[m] p =
      { p with cookies := p.cookies.map fun c =>
          if c.value = v then (markOne false)^[m] c else c } := by
  induction m with
  | zero =>
    rw [Function.iterate_zero_apply]
    have h0 : (p.cookies.map fun c => if c.value = v then (markOne false)^[0] c else c)
        = p.cookies := by
      have hid : ∀ c ∈ p.cookies, (if c.value = v then (markOne false)^[0] c else c) = id c := by
        intro c _
        simp
      rw [List.map_congr_left hid, List.map_id]
    rw [h0]
  | succ m ih =>
    rw [Function.iterate_succ_apply', ih]
    unfold CookiePool.markInvalid
    have hpres : ∀ c : CookieItem,
        (if c.value = v then (markOne false)^[m] c else c).value = c.value := by
      intro c
      split
      · rw [markOne_iter_value]
      · rfl
    have hvals : ((p.cookies.map fun c =>
        if c.value = v then (markOne false)^[m] c else c).map CookieItem.value)
        = p.cookies.map CookieItem.value := by
      rw [List.map_map]
      exact List.map_congr_left fun c _ => hpres c
    have hnd' : ((p.cookies.map fun c =>
        if c.value = v then (markOne false)^[m] c else c).map CookieItem.value).Nodup := by
      rw [hvals]; exact hnd
    rw [markInvalidList_eq_map _ _ _ hnd', List.map_map]
    have : ((fun c => if c.value = v then markOne false c else c) ∘
        fun c => if c.value = v then (markOne false)^[m] c else c)
        = fun c => if c.value = v then (markOne false)^[m + 1] c else c := by
      funext c
      by_cases hc : c.value = v
      · simp only [Function.comp_apply, if_pos hc,
          if_pos (markOne_iter_value m c ▸ hc), Function.iterate_succ_apply']
      · simp only [Function.comp_apply, if_neg hc]
    rw [this]

theorem mem_availableCookies {c : CookieItem} {l : List CookieItem} :
    c ∈ availableCookies l ↔ c ∈ l ∧ c.enabled = true ∧ c.is_valid = true := by
  simp [availableCookies, List.mem_filter, Bool.and_eq_true, and_assoc]

theorem getD_mem {α : Type} (l : List α) (i : Nat) (d : α) (h : i < l.length) :
    l.getD i d ∈ l := by
  rw [List.getD_eq_getElem l d h]
  exact List.getElem_mem h

theorem length_pos_of_not_isEmpty {α : Type} {l : List α} (he : l.isEmpty = false) :
    0 < l.length := by
  cases l with
  | nil => simp [List.isEmpty] at he
  | cons a l => exact Nat.succ_pos _

/-- Every value returned by `get_cookie` is the value of some available item. -/
theorem getCookie_some (p : CookiePool) (rand : Nat) (s : String)
    (h : (p.getCookie rand).1 = some s) :
    ∃ c ∈ availableCookies p.cookies, c.value = s := by
  unfold CookiePool.getCookie at h
  by_cases he : (availableCookies p.cookies).isEmpty
  · rw [if_pos he] at h
    exact absurd h (by simp)
  · rw [if_neg he] at h
    have hlen : 0 < (availableCookies p.cookies).length :=
      length_pos_of_not_isEmpty (Bool.eq_false_iff.mpr he)
    by_cases hr : p.strategy = "random"
    · rw [if_pos hr] at h
      simp only [Option.some.injEq] at h
      exact ⟨_, getD_mem _ _ _ (Nat.mod_lt rand hlen), h⟩
    · rw [if_neg hr] at h
      simp only [Option.some.injEq] at h
      exact ⟨_, getD_mem _ _ _ (Nat.mod_lt p.index hlen), h⟩

/-- Every item returned by `get_cookie_item` is an available item. -/
theorem getCookieItem_some (p : CookiePool) (rand : Nat) (c : CookieItem)
    (h : (p.getCookieItem rand).1 = some c) : c ∈ availableCookies p.cookies := by
  unfold CookiePool.getCookieItem at h
  by_cases he : (availableCookies p.cookies).isEmpty
  · rw [if_pos he] at h
    exact absurd h (by simp)
  · rw [if_neg he] at h
    have hlen : 0 < (availableCookies p.cookies).length :=
      length_pos_of_not_isEmpty (Bool.eq_false_iff.mpr he)
    by_cases hr : p.strategy = "random"
    · rw [if_pos hr] at h
      simp only [Option.some.injEq] at h
      exact h ▸ getD_mem _ _ _ (Nat.mod_lt rand hlen)
    · rw [if_neg hr] at h
      simp only [Option.some.injEq] at h
      exact h ▸ getD_mem _ _ _ (Nat.mod_lt p.index hlen)

/-- After the `max_fails`-fold mark-failure iterate, every pool item carrying
the marked value is invalid. -/
theorem marked_value_invalid (p : CookiePool) (c₀ : CookieItem) (v : String)
    (hnd : (p.cookies.map CookieItem.value).Nodup)
    (hc : c₀ ∈ p.cookies) (hv : c₀.value = v) (hmax : 1 ≤ c₀.max_fails) :
    ∀ c ∈ ((fun q => CookiePool.markInvalid q v false)^[c₀.max_fails] p).cookies,
      c.value = v → c.is_valid = false := by
  intro c hm hcv
  rw [markInvalid_false_iterate p v _ hnd] at hm
  simp only [List.mem_map] at hm
  obtain ⟨y, hy, rfl⟩ := hm
  by_cases hyv : y.value = v
  · rw [if_pos hyv] at hcv ⊢
    have hy0 : y = c₀ :=
      List.inj_on_of_nodup_map hnd hy hc (by rw [hyv, hv])
    subst hy0
    exact markOne_iter_invalid _ _ hmax (Nat.le_add_left _ _)
  · rw [if_neg hyv] at hcv
    exact absurd hcv hyv

/-- C5: after `max_fails` consecutive `mark_invalid(value, permanent=False)`
calls on a credential's value with no intervening reset, that credential's
`fail_count` is at least `max_fails`, its `is_valid` flag is cleared, and no
subsequent `get_cookie` / `get_cookie_item` call returns it; marking a value
matching no credential leaves the pool unchanged.  (Credential values are
assumed pairwise distinct, as a value identifies the credential, and
`max_fails ≥ 1` as in the source default of 3.) -/
theorem credential_exclusion (p : CookiePool) (c₀ : CookieItem) (v : String)
    (hnd : (p.cookies.map CookieItem.value).Nodup)
    (hc : c₀ ∈ p.cookies) (hv : c₀.value = v) (hmax : 1 ≤ c₀.max_fails) :
    (∃ c₁ ∈ ((fun q => CookiePool.markInvalid q v false)^[c₀.max_fails] p).cookies,
        c₁.value = v ∧ c₁.fail_count = c₀.fail_count + c₀.max_fails ∧
        c₀.max_fails ≤ c₁.fail_count ∧ c₁.is_valid = false) ∧
    (∀ rand,
      (((fun q => CookiePool.markInvalid q v false)^[c₀.max_fails] p).getCookie rand).1
        ≠ some v) ∧
    (∀ rand c,
      (((fun q => CookiePool.markInvalid q v false)^[c₀.max_fails] p).getCookieItem rand).1
        = some c → c.value ≠ v) ∧
    (∀ w perm, (∀ c ∈ p.cookies, c.value ≠ w) → p.markInvalid w perm = p) := by
  refine ⟨?_, ?_, ?_, ?_⟩
  · refine ⟨(markOne false)^[c₀.max_fails] c₀, ?_, ?_, ?_, ?_, ?_⟩
    · rw [markInvalid_false_iterate p v _ hnd]
      have := List.mem_map_of_mem
        (fun c => if c.value = v then (markOne false)^[c₀.max_fails] c else c) hc
      simp only [if_pos hv] at this
      exact this
    · rw [markOne_iter_value, hv]
    · exact (markOne_iter_fields _ _).1
    · rw [(markOne_iter_fields _ _).1]
      omega
    · exact markOne_iter_invalid _ _ hmax (Nat.le_add_left _ _)
  · intro rand hcon
    obtain ⟨c, hca, hcv⟩ := getCookie_some _ rand v hcon
    rw [mem_availableCookies] at hca
    have := marked_value_invalid p c₀ v hnd hc hv hmax c hca.1 hcv
    rw [hca.2.2] at this
    exact Bool.noConfusion this
  · intro rand c hcr hcv
    have hca := getCookieItem_some _ rand c hcr
    rw [mem_availableCookies] at hca
    have := marked_value_invalid p c₀ v hnd hc hv hmax c hca.1 hcv
    rw [hca.2.2] at this
    exact Bool.noConfusion this
  · intro w perm hno
    unfold CookiePool.markInvalid
    rw [markInvalidList_no_match _ _ _ hno]

/-- Sample two-credential pool for the exclusion witness. -/
def samplePool : CookiePool :=
  ⟨[⟨"v1", "n1", true, true, 0, 1⟩, ⟨"v2", "n2", true, true, 0, 1⟩], 0, "round_robin"⟩

/-- Closed instance of `credential_exclusion` at a concrete two-credential
pool. -/
theorem credential_exclusion_witness :
    ((samplePool.cookies.map CookieItem.value).Nodup ∧
      (⟨"v1", "n1", true, true, 0, 1⟩ : CookieItem) ∈ samplePool.cookies ∧
      (⟨"v1", "n1", true, true, 0, 1⟩ : CookieItem).value = "v1" ∧
      1 ≤ (⟨"v1", "n1", true, true, 0, 1⟩ : CookieItem).max_fails) ∧
    ((∃ c₁ ∈ ((fun q => CookiePool.markInvalid q "v1" false)^[
          (⟨"v1", "n1", true, true, 0, 1⟩ : CookieItem).max_fails] samplePool).cookies,
        c₁.value = "v1" ∧
        c₁.fail_count = (⟨"v1", "n1", true, true, 0, 1⟩ : CookieItem).fail_count +
          (⟨"v1", "n1", true, true, 0, 1⟩ : CookieItem).max_fails ∧
        (⟨"v1", "n1", true, true, 0, 1⟩ : CookieItem).max_fails ≤ c₁.fail_count ∧
        c₁.is_valid = false) ∧
      (∀ rand,
        (((fun q => CookiePool.markInvalid q "v1" false)^[
            (⟨"v1", "n1", true, true, 0, 1⟩ : CookieItem).max_fails] samplePool).getCookie
              rand).1 ≠ some "v1") ∧
      (∀ rand c,
        (((fun q => CookiePool.markInvalid q "v1" false)^[
            (⟨"v1", "n1", true, true, 0, 1⟩ : CookieItem).max_fails] samplePool).getCookieItem
              rand).1 = some c → c.value ≠ "v1") ∧
      (∀ w perm, (∀ c ∈ samplePool.cookies, c.value ≠ w) →
        samplePool.markInvalid w perm = samplePool)) :=
  ⟨⟨by decide, by decide, by decide, by decide⟩,
    credential_exclusion samplePool ⟨"v1", "n1", true, true, 0, 1⟩ "v1"
      (by decide) (by decide) (by decide) (by decide)⟩

/-- `m` successive `get_cookie` calls on a pool; `rands i` feeds the random
oracle of call `i` (unused under round-robin). -/
def CookiePool.selectN : CookiePool → (Nat → Nat) → Nat → Nat → List (Option String) × CookiePool
  | p, _, 0, _ => ([], p)
  | p, rands, m + 1, i =>
    let r := p.getCookie (rands i)
    let rest := CookiePool.selectN r.2 rands m (i + 1)
    (r.1 :: rest.1, rest.2)

theorem availableCookies_ne_nil_isEmpty {l : List CookieItem}
    (h : availableCookies l ≠ []) : (availableCookies l).isEmpty = false := by
  cases hl : availableCookies l with
  | nil => exact absurd hl h
  | cons a t => rfl

/-- Under round-robin the `t`-th of `m` successive selections reads the
available item at position `(index + t) mod k`. -/
theorem selectN_outputs (rands : Nat → Nat) (m : Nat) :
    ∀ (p : CookiePool) (i : Nat), p.strategy ≠ "random" →
      availableCookies p.cookies ≠ [] →
      (CookiePool.selectN p rands m i).1 =
        (List.range m).map fun t =>
          some ((availableCookies p.cookies).getD
            ((p.index + t) % (availableCookies p.cookies).length) dummyCookie).value := by
  induction m with
  | zero =>
    intro p i _ _
    simp [CookiePool.selectN]
  | succ m ih =>
    intro p i hs ha
    have he := availableCookies_ne_nil_isEmpty ha
    have hget : p.getCookie (rands i) =
        (some ((availableCookies p.cookies).getD
            (p.index % (availableCookies p.cookies).length) dummyCookie).value,
          { p with index := p.index % (availableCookies p.cookies).length + 1 }) := by
      unfold CookiePool.getCookie
      rw [if_neg (by rw [he]; exact Bool.false_ne_true), if_neg hs]
    rw [CookiePool.selectN, hget]
    have hrest := ih { p with index := p.index % (availableCookies p.cookies).length + 1 }
      (i + 1) hs ha
    simp only at hrest
    dsimp only
    rw [hrest, List.range_succ_eq_map, List.map_cons, List.map_map]
    congr 1
    apply List.map_congr_left
    intro t _
    simp only [Function.comp_apply, Nat.succ_eq_add_one]
    rw [Nat.add_assoc, Nat.mod_add_mod, Nat.add_comm 1 t]

/-- Number of `t < m` with `t ≡ d (mod k)`, exact form. -/
theorem length_filter_range_mod (k d : Nat) (hk : 0 < k) (hd : d < k) (m : Nat) :
    ((List.range m).filter fun t => decide (t % k = d)).length
      = m / k + (if d < m % k then 1 else 0) := by
  induction m with
  | zero => simp
  | succ m ih =>
    obtain ⟨q, r, hm, hr⟩ : ∃ q r, m = k * q + r ∧ r < k :=
      ⟨m / k, m % k, (Nat.div_add_mod m k).symm, Nat.mod_lt m hk⟩
    have hdivm : m / k = q := by
      rw [hm, Nat.mul_add_div hk, Nat.div_eq_of_lt hr, Nat.add_zero]
    have hmodm : m % k = r := by
      rw [hm, Nat.mul_add_mod, Nat.mod_eq_of_lt hr]
    have hlastlen : (List.filter (fun t => decide (t % k = d)) [m]).length
        = if r = d then 1 else 0 := by
      simp only [List.filter, hmodm]
      by_cases hrd : r = d
      · simp [hrd]
      · simp [hrd]
    rw [List.range_succ, List.filter_append, List.length_append, ih, hdivm, hmodm, hlastlen]
    by_cases hcase : r + 1 = k
    · have hm1 : m + 1 = k * (q + 1) := by
        have hex : k * (q + 1) = k * q + k := by ring
        omega
      rw [show (m + 1) / k = q + 1 from by rw [hm1, Nat.mul_div_cancel_left _ hk],
        show (m + 1) % k = 0 from by rw [hm1, Nat.mul_mod_right]]
      split_ifs <;> omega
    · have hlt : r + 1 < k := by omega
      have hm1 : m + 1 = k * q + (r + 1) := by omega
      rw [show (m + 1) / k = q from by
          rw [hm1, Nat.mul_add_div hk, Nat.div_eq_of_lt hlt, Nat.add_zero],
        show (m + 1) % k = r + 1 from by rw [hm1, Nat.mul_add_mod, Nat.mod_eq_of_lt hlt]]
      split_ifs <;> omega

/-- Number of `t < m` with `t ≡ d (mod k)` is `⌊m/k⌋` or `⌈m/k⌉`. -/
theorem length_filter_range_mod_floor_ceil (k d m : Nat) (hk : 0 < k) (hd : d < k) :
    ((List.range m).filter fun t => decide (t % k = d)).length = m / k ∨
    ((List.range m).filter fun t => decide (t % k = d)).length = (m + k - 1) / k := by
  rw [length_filter_range_mod k d hk hd m]
  by_cases h : d < m % k
  · right
    rw [if_pos h]
    obtain ⟨q, r, hm, hr⟩ : ∃ q r, m = k * q + r ∧ r < k :=
      ⟨m / k, m % k, (Nat.div_add_mod m k).symm, Nat.mod_lt m hk⟩
    have hdivm : m / k = q := by
      rw [hm, Nat.mul_add_div hk, Nat.div_eq_of_lt hr, Nat.add_zero]
    have hmodm : m % k = r := by
      rw [hm, Nat.mul_add_mod, Nat.mod_eq_of_lt hr]
    have hrpos : 0 < r := by rw [hmodm] at h; omega
    have hm1 : m + k - 1 = k * (q + 1) + (r - 1) := by
      have hex : k * (q + 1) = k * q + k := by ring
      omega
    have hlt : r - 1 < k := by omega
    rw [hdivm, hm1, Nat.mul_add_div hk, Nat.div_eq_of_lt hlt, Nat.add_zero]
  · left
    rw [if_neg h, Nat.add_zero]

/-- Reduce `(i0 + t) % k = j` to a pure residue condition on `t`. -/
theorem add_mod_eq_iff (k i0 j : Nat) (hk : 0 < k) (hj : j < k) (t : Nat) :
    ((i0 + t) % k = j) ↔ (t % k = (k - i0 % k + j) % k) := by
  have hbase : (i0 + (k - i0 % k + j)) % k = j := by
    have hi := Nat.div_add_mod i0 k
    have hilt := Nat.mod_lt i0 hk
    have : i0 + (k - i0 % k + j) = k * (i0 / k + 1) + j := by
      have hex : k * (i0 / k + 1) = k * (i0 / k) + k := by ring
      omega
    rw [this, Nat.mul_add_mod, Nat.mod_eq_of_lt hj]
  have hdlt : (k - i0 % k + j) % k < k := Nat.mod_lt _ hk
  constructor
  · intro h
    have hmeq : i0 + t ≡ i0 + ((k - i0 % k + j) % k) [MOD k] := by
      show (i0 + t) % k = (i0 + (k - i0 % k + j) % k) % k
      rw [Nat.add_mod_mod, hbase, h]
    have h2 : t % k = ((k - i0 % k + j) % k) % k := Nat.ModEq.add_left_cancel' i0 hmeq
    rwa [Nat.mod_eq_of_lt hdlt] at h2
  · intro h
    rw [Nat.add_mod, h, Nat.add_mod_mod, Nat.mod_add_mod, hbase]

/-- C6: under the round-robin strategy, with the available set fixed at `k`
credentials (of pairwise-distinct values), any `m` successive `get_cookie`
calls all succeed and return each available credential either `⌊m/k⌋` or
`⌈m/k⌉` times. -/
theorem round_robin_fairness (p : CookiePool) (rands : Nat → Nat) (m : Nat) (c : CookieItem)
    (hs : p.strategy = "round_robin")
    (hnd : (p.cookies.map CookieItem.value).Nodup)
    (hc : c ∈ availableCookies p.cookies) :
    (p.selectN rands m 0).1.length = m ∧
    (∀ o ∈ (p.selectN rands m 0).1, o.isSome = true) ∧
    ((p.selectN rands m 0).1.count (some c.value)
        = m / (availableCookies p.cookies).length ∨
      (p.selectN rands m 0).1.count (some c.value)
        = (m + (availableCookies p.cookies).length - 1)
            / (availableCookies p.cookies).length) := by
  have ha : availableCookies p.cookies ≠ [] := List.ne_nil_of_mem hc
  have hk : 0 < (availableCookies p.cookies).length := List.length_pos.mpr ha
  have hs' : p.strategy ≠ "random" := by
    rw [hs]
    decide
  have houts := selectN_outputs rands m p 0 hs' ha
  refine ⟨?_, ?_, ?_⟩
  · rw [houts]
    simp
  · rw [houts]
    intro o ho
    obtain ⟨t, _, rfl⟩ := List.mem_map.mp ho
    rfl
  · obtain ⟨j, hj, hje⟩ := List.getElem_of_mem hc
    have hsub : List.Sublist (availableCookies p.cookies) p.cookies :=
      List.filter_sublist p.cookies
    have availNodup : ((availableCookies p.cookies).map CookieItem.value).Nodup :=
      List.Nodup.sublist (List.Sublist.map CookieItem.value hsub) hnd
    have hnda : (availableCookies p.cookies).Nodup := List.Nodup.of_map _ availNodup
    have hd : ((availableCookies p.cookies).length
          - p.index % (availableCookies p.cookies).length + j)
          % (availableCookies p.cookies).length < (availableCookies p.cookies).length :=
      Nat.mod_lt _ hk
    have hpoint : ∀ t : Nat,
        ((some ((availableCookies p.cookies).getD
            ((p.index + t) % (availableCookies p.cookies).length) dummyCookie).value
          == some c.value) = true)
        ↔ (decide (t % (availableCookies p.cookies).length =
            ((availableCookies p.cookies).length
              - p.index % (availableCookies p.cookies).length + j)
              % (availableCookies p.cookies).length) = true) := by
      intro t
      have hit : (p.index + t) % (availableCookies p.cookies).length
          < (availableCookies p.cookies).length := Nat.mod_lt _ hk
      rw [beq_iff_eq, decide_eq_true_eq, Option.some_inj, List.getD_eq_getElem _ _ hit]
      rw [← add_mod_eq_iff _ p.index j hk hj t]
      constructor
      · intro hvv
        have heq : (availableCookies p.cookies)[(p.index + t)
              % (availableCookies p.cookies).length]
            = (availableCookies p.cookies)[j] :=
          List.inj_on_of_nodup_map availNodup (List.getElem_mem hit) (List.getElem_mem hj)
            (by rw [hvv, hje])
        exact (List.Nodup.getElem_inj_iff hnda).mp heq
      · intro hidx
        subst hidx
        exact congrArg CookieItem.value hje
    have hcount : (p.selectN rands m 0).1.count (some c.value)
        = ((List.range m).filter fun t =>
            decide (t % (availableCookies p.cookies).length =
              ((availableCookies p.cookies).length
                - p.index % (availableCookies p.cookies).length + j)
                % (availableCookies p.cookies).length)).length := by
      rw [houts, List.count_eq_countP, List.countP_map, ← List.countP_eq_length_filter]
      exact List.countP_congr fun t _ => hpoint t
    rw [hcount]
    exact length_filter_range_mod_floor_ceil _ _ m hk hd

/-- Sample pool for the fairness witness. -/
def fairPool : CookiePool :=
  ⟨[⟨"a", "n1", true, true, 0, 3⟩, ⟨"b", "n2", true, true, 0, 3⟩], 0, "round_robin"⟩

/-- Closed instance of `round_robin_fairness`: two credentials, three
selections. -/
theorem round_robin_fairness_witness :
    (fairPool.strategy = "round_robin" ∧
      (fairPool.cookies.map CookieItem.value).Nodup ∧
      (⟨"a", "n1", true, true, 0, 3⟩ : CookieItem) ∈ availableCookies fairPool.cookies) ∧
    ((fairPool.selectN (fun _ => 0) 3 0).1.length = 3 ∧
      (∀ o ∈ (fairPool.selectN (fun _ => 0) 3 0).1, o.isSome = true) ∧
      ((fairPool.selectN (fun _ => 0) 3 0).1.count
            (some (⟨"a", "n1", true, true, 0, 3⟩ : CookieItem).value)
          = 3 / (availableCookies fairPool.cookies).length ∨
        (fairPool.selectN (fun _ => 0) 3 0).1.count
            (some (⟨"a", "n1", true, true, 0, 3⟩ : CookieItem).value)
          = (3 + (availableCookies fairPool.cookies).length - 1)
              / (availableCookies fairPool.cookies).length)) :=
  ⟨⟨rfl, by decide, by decide⟩,
    round_robin_fairness fairPool (fun _ => 0) 3 ⟨"a", "n1", true, true, 0, 3⟩
      rfl (by decide) (by decide)⟩

/-! ## Progress store (`spider/storage.py`) -/

/-- One entry of `video_comment_progress.json`: `done`, `cursor`, optional
`aid`. -/
structure ProgressEntry where
  done : Bool
  cursor : String
  aid : Option Nat
deriving DecidableEq

/-- The progress mapping `{bvid → entry}` of the JSON file. -/
def Progress : Type := String → Option ProgressEntry

/-- `save_video_comment_progress(bvid, cursor, aid=None)`: create the entry
with `done=False` and empty cursor if missing, set `cursor`, and set `aid`
only when one is given. -/
def save_video_comment_progress (data : Progress) (bvid cursor : String)
    (aid : Option Nat) : Progress :=
  fun b =>
    if b = bvid then
      let e := (data bvid).getD ⟨false, "", none⟩
      some { e with cursor := cursor,
                    aid := match aid with
                      | some a => some a
                      | none => e.aid }
    else data b

/-- `mark_video_comments_done(bvid)`: create the entry if missing, set
`done=True` and clear the cursor. -/
def mark_video_comments_done (data : Progress) (bvid : String) : Progress :=
  fun b =>
    if b = bvid then
      let e := (data bvid).getD ⟨false, "", none⟩
      some { e with done := true, cursor := "" }
    else data b

/-- `get_video_comment_progress(bvid)` with its read-side defaults. -/
def get_video_comment_progress (data : Progress) (bvid : String) : ProgressEntry :=
  (data bvid).getD ⟨false, "", none⟩

/-- C10: `save_video_comment_progress(bvid, cursor, aid)` modifies only the
`bvid` entry: it sets that entry's cursor, updates `aid` only when one is
given, preserves the `done` flag of an existing entry, creates a missing
entry with `done=False`, and leaves every other video's entry unchanged. -/
theorem save_progress_frame (data : Progress) (bvid cursor : String) (aid : Option Nat) :
    (save_video_comment_progress data bvid cursor aid bvid
      = some { done := (get_video_comment_progress data bvid).done,
               cursor := cursor,
               aid := match aid with
                 | some a => some a
                 | none => (get_video_comment_progress data bvid).aid }) ∧
    (data bvid = none →
      save_video_comment_progress data bvid cursor aid bvid = some ⟨false, cursor, aid⟩) ∧
    (∀ b, b ≠ bvid → save_video_comment_progress data bvid cursor aid b = data b) := by
  refine ⟨?_, ?_, ?_⟩
  · simp [save_video_comment_progress, get_video_comment_progress]
  · intro h
    simp only [save_video_comment_progress, h, if_pos rfl]
    cases aid <;> rfl
  · intro b hb
    simp [save_video_comment_progress, hb]

/-- Closed instance of `save_progress_frame` on a two-entry store. -/
theorem save_progress_frame_witness :
    ((fun b => if b = "BV2" then some (⟨true, "Z", some 9⟩ : ProgressEntry) else none :
        Progress) "BV1" = none) ∧
    (save_video_comment_progress
        (fun b => if b = "BV2" then some ⟨true, "Z", some 9⟩ else none)
        "BV1" "CUR" (some 5) "BV1" = some ⟨false, "CUR", some 5⟩) ∧
    (save_video_comment_progress
        (fun b => if b = "BV2" then some ⟨true, "Z", some 9⟩ else none)
        "BV1" "CUR" (some 5) "BV2" = some ⟨true, "Z", some 9⟩) :=
  ⟨by decide,
    (save_progress_frame (fun b => if b = "BV2" then some ⟨true, "Z", some 9⟩ else none)
        "BV1" "CUR" (some 5)).2.1 (by decide),
    ((save_progress_frame (fun b => if b = "BV2" then some ⟨true, "Z", some 9⟩ else none)
        "BV1" "CUR" (some 5)).2.2 "BV2" (by decide)).trans (by decide)⟩

/-! ## Comment worker progress writes (`spider/crawler.py`, `comment_worker`) -/

/-- A reply object as consumed by the workers. -/
structure Reply where
  rpid : Nat
  mid : Nat
  rcount : Nat
deriving DecidableEq

/-- One `get_main_comments` result as seen by the worker:
`(replies, next_cursor, is_end, error)`. -/
structure PageResult where
  replies : List Reply
  next_cursor : String
  is_end : Bool
  error : Option String
deriving DecidableEq

/-- A write to the progress store. -/
inductive StoreOp where
  | saveCursor (bvid cursor : String) (aid : Option Nat)
  | markDone (bvid : String)
deriving DecidableEq

/-- Apply one store write. -/
def applyOp (data : Progress) : StoreOp → Progress
  | .saveCursor bvid cursor aid => save_video_comment_progress data bvid cursor aid
  | .markDone bvid => mark_video_comments_done data bvid

/-- Apply a sequence of store writes in order. -/
def applyOps (data : Progress) : List StoreOp → Progress
  | [] => data
  | op :: rest => applyOps (applyOp data op) rest

/-- The progress-store writes of `comment_worker`'s paging loop for one
video, given the script of successive `get_main_comments` results: on error,
persist the current cursor and stop; on `is_end` or an empty page, mark done
and stop; otherwise persist the new cursor and continue. -/
def commentWalkOps (bvid : String) (aid : Nat) : String → List PageResult → List StoreOp
  | _, [] => []
  | cursor, p :: rest =>
    if p.error.isSome then [.saveCursor bvid cursor (some aid)]
    else if p.is_end || p.replies.isEmpty then [.markDone bvid]
    else .saveCursor bvid p.next_cursor (some aid) :: commentWalkOps bvid aid p.next_cursor rest

/-- `comment_worker` body for one dequeued video: read progress; when
`resume` is set and the entry is `done`, skip entirely; otherwise walk the
pages starting from the stored cursor (or `""` when `resume` is off). -/
def processVideoOps (resume : Bool) (data : Progress) (bvid : String) (aid : Nat)
    (pages : List PageResult) : List StoreOp :=
  let progress := get_video_comment_progress data bvid
  if resume && progress.done then []
  else commentWalkOps bvid aid (if resume then progress.cursor else "") pages

/-- C3 counterexample: with the resume flag disabled the worker re-walks a
video whose entry is `done=true` and stores a non-empty cursor for it again:
after `mark_video_comments_done "BV1"`, processing `"BV1"` with
`resume=false` against a script whose second page errors leaves the entry at
`{done: true, cursor: "AA", aid: 7}`. -/
theorem done_then_cursor_counterexample :
    (mark_video_comments_done (fun _ => none) "BV1") "BV1" = some ⟨true, "", none⟩ ∧
    processVideoOps false (mark_video_comments_done (fun _ => none) "BV1") "BV1" 7
        [⟨[⟨1, 2, 0⟩], "AA", false, none⟩, ⟨[], "", false, some "err"⟩]
      = [.saveCursor "BV1" "AA" (some 7), .saveCursor "BV1" "AA" (some 7)] ∧
    (applyOps (mark_video_comments_done (fun _ => none) "BV1")
        (processVideoOps false (mark_video_comments_done (fun _ => none) "BV1") "BV1" 7
          [⟨[⟨1, 2, 0⟩], "AA", false, none⟩, ⟨[], "", false, some "err"⟩])) "BV1"
      = some ⟨true, "AA", some 7⟩ ∧
    ("AA" : String) ≠ "" := by
  refine ⟨by decide, by decide, by decide, by decide⟩

/-- C3 (amended, resume enabled): a worker skips a `done` video entirely,
performing no store writes for it; and within one video's walk, `markDone`
is always the final write, so no cursor write ever follows it. -/
theorem done_then_no_cursor (bvid : String) (aid : Nat) (data : Progress)
    (pages : List PageResult) (cursor : String) :
    ((get_video_comment_progress data bvid).done = true →
      processVideoOps true data bvid aid pages = []) ∧
    (∀ pre post,
      commentWalkOps bvid aid cursor pages = pre ++ StoreOp.markDone bvid :: post →
      post = []) := by
  constructor
  · intro h
    simp [processVideoOps, h]
  · induction pages generalizing cursor with
    | nil =>
      intro pre post h
      simp [commentWalkOps] at h
    | cons p rest ih =>
      intro pre post h
      rw [commentWalkOps] at h
      by_cases he : p.error.isSome
      · rw [if_pos he] at h
        cases pre with
        | nil => simp at h
        | cons a pre' =>
          rw [List.cons_append] at h
          have := (List.cons.injEq _ _ _ _).mp h
          exact absurd this.2.symm (List.append_ne_nil_of_right_ne_nil _ (by simp))
      · rw [if_neg he] at h
        by_cases hend : (p.is_end || p.replies.isEmpty) = true
        · rw [if_pos hend] at h
          cases pre with
          | nil =>
            simp at h
            exact h
          | cons a pre' =>
            rw [List.cons_append] at h
            have := (List.cons.injEq _ _ _ _).mp h
            exact absurd this.2.symm (List.append_ne_nil_of_right_ne_nil _ (by simp))
        · rw [if_neg hend] at h
          cases pre with
          | nil =>
            rw [List.nil_append] at h
            have := (List.cons.injEq _ _ _ _).mp h
            exact absurd this.1 (by simp)
          | cons a pre' =>
            rw [List.cons_append] at h
            have := (List.cons.injEq _ _ _ _).mp h
            exact ih p.next_cursor pre' post this.2

/-- Closed instance of `done_then_no_cursor`: a `done` entry is skipped under
resume. -/
theorem done_then_no_cursor_witness :
    (get_video_comment_progress (mark_video_comments_done (fun _ => none) "BV1") "BV1").done
      = true ∧
    processVideoOps true (mark_video_comments_done (fun _ => none) "BV1") "BV1" 7
      [⟨[⟨1, 2, 0⟩], "AA", false, none⟩] = [] :=
  ⟨by decide,
    (done_then_no_cursor "BV1" 7 (mark_video_comments_done (fun _ => none) "BV1")
      [⟨[⟨1, 2, 0⟩], "AA", false, none⟩] "").1 (by decide)⟩

/-! ## Sink sends and emitted-id ledgers (`spider/storage.py`) -/

/-- An externally visible effect of a save function, listed in program
order: a Kafka send to a topic with a key, or an append of an id line to a
ledger file. -/
inductive Effect where
  | send (topic key : String)
  | append (file line : String)
deriving DecidableEq

/-- A video record as read by `save_video`: only the `bvid` lookup matters.
`none` models a missing key; `some ""` an empty one (both falsy in Python). -/
structure VideoRec where
  bvid : Option String
deriving DecidableEq

/-- A comment record as read by `save_comment` (`rpid`; `0` is falsy). -/
structure CommentRec where
  rpid : Option Nat
deriving DecidableEq

/-- An account record as read by `save_account` (`card.mid`; `0` is falsy). -/
structure AccountRec where
  card_mid : Option Nat
deriving DecidableEq

/-- `save_video`: return `False` with no effects when `bvid` is missing or
falsy; otherwise send to `claw_video` keyed by `bvid`, then append `bvid` to
`sent_videos.txt`. -/
def save_video (v : VideoRec) : Bool × List Effect :=
  match v.bvid with
  | none => (false, [])
  | some b =>
    if b = "" then (false, [])
    else (true, [.send "claw_video" b, .append "sent_videos.txt" b])

/-- `save_comment`: as `save_video` with key `str(rpid)`, topic
`claw_comment`, ledger `sent_comments.txt`. -/
def save_comment (c : CommentRec) : Bool × List Effect :=
  match c.rpid with
  | none => (false, [])
  | some r =>
    if r = 0 then (false, [])
    else (true, [.send "claw_comment" (toString r), .append "sent_comments.txt" (toString r)])

/-- `save_account`: as `save_video` with key `str(card.mid)`, topic
`claw_account`, ledger `sent_accounts.txt`. -/
def save_account (a : AccountRec) : Bool × List Effect :=
  match a.card_mid with
  | none => (false, [])
  | some m =>
    if m = 0 then (false, [])
    else (true, [.send "claw_account" (toString m), .append "sent_accounts.txt" (toString m)])

/-- C4: each save function drops a record lacking its primary key (returns
`False`, no sink send, no ledger append); with the key present it performs
exactly one sink send followed by one ledger append of the same key, so
every ledger line corresponds to a sink call with that key made before the
append. -/
theorem saves_key_checked (v : VideoRec) (c : CommentRec) (a : AccountRec) :
    ((v.bvid = none ∨ v.bvid = some "") → save_video v = (false, [])) ∧
    (∀ b, v.bvid = some b → b ≠ "" →
      save_video v = (true, [.send "claw_video" b, .append "sent_videos.txt" b])) ∧
    ((c.rpid = none ∨ c.rpid = some 0) → save_comment c = (false, [])) ∧
    (∀ r, c.rpid = some r → r ≠ 0 →
      save_comment c = (true,
        [.send "claw_comment" (toString r), .append "sent_comments.txt" (toString r)])) ∧
    ((a.card_mid = none ∨ a.card_mid = some 0) → save_account a = (false, [])) ∧
    (∀ m, a.card_mid = some m → m ≠ 0 →
      save_account a = (true,
        [.send "claw_account" (toString m), .append "sent_accounts.txt" (toString m)])) := by
  refine ⟨?_, ?_, ?_, ?_, ?_, ?_⟩
  · rintro (h | h) <;> simp [save_video, h]
  · intro b hb hne
    simp [save_video, hb, hne]
  · rintro (h | h) <;> simp [save_comment, h]
  · intro r hr hne
    simp [save_comment, hr, hne]
  · rintro (h | h) <;> simp [save_account, h]
  · intro m hm hne
    simp [save_account, hm, hne]

/-- Closed instance of `saves_key_checked`. -/
theorem saves_key_checked_witness :
    save_video ⟨none⟩ = (false, []) ∧
    save_video ⟨some "BV9"⟩
      = (true, [.send "claw_video" "BV9", .append "sent_videos.txt" "BV9"]) ∧
    save_comment ⟨some 0⟩ = (false, []) ∧
    save_comment ⟨some 12⟩
      = (true, [.send "claw_comment" "12", .append "sent_comments.txt" "12"]) ∧
    save_account ⟨none⟩ = (false, []) ∧
    save_account ⟨some 34⟩
      = (true, [.send "claw_account" "34", .append "sent_accounts.txt" "34"]) :=
  ⟨(saves_key_checked ⟨none⟩ ⟨some 0⟩ ⟨none⟩).1 (Or.inl rfl),
    ((saves_key_checked ⟨some "BV9"⟩ ⟨some 0⟩ ⟨none⟩).2.1 "BV9" rfl (by decide)).trans
      (by decide),
    (saves_key_checked ⟨none⟩ ⟨some 0⟩ ⟨none⟩).2.2.1 (Or.inr rfl),
    ((saves_key_checked ⟨none⟩ ⟨some 12⟩ ⟨none⟩).2.2.2.1 12 rfl (by decide)).trans (by decide),
    (saves_key_checked ⟨none⟩ ⟨some 0⟩ ⟨none⟩).2.2.2.2.1 (Or.inl rfl),
    ((saves_key_checked ⟨none⟩ ⟨some 0⟩ ⟨some 34⟩).2.2.2.2.2 34 rfl (by decide)).trans
      (by decide)⟩

/-! ## Pending user ids (`spider/crawler.py` and `update_pending_mids`) -/

/-- `update_pending_mids(remaining)`: delete the file when the set is empty
(`none` models an absent file), else rewrite it with one id per line. -/
def update_pending_mids (remaining : List String) : Option (List String) :=
  if remaining.isEmpty then none else some remaining

/-- Python-set insertion (`set.add`): append only when absent. -/
def addMid (l : List String) (m : String) : List String :=
  if m ∈ l then l else l ++ [m]

/-- Run events touching the user-id sets: `observe` models `_add_user_mid`
adding to `self.user_mids`, `emit` models a successful account save adding
to `self.saved_mids`. -/
inductive MidEvent where
  | observe (mid : String)
  | emit (mid : String)

/-- The two id sets of a run. -/
structure MidState where
  user_mids : List String
  saved_mids : List String

def midStep (s : MidState) : MidEvent → MidState
  | .observe m => { s with user_mids := addMid s.user_mids m }
  | .emit m => { s with saved_mids := addMid s.saved_mids m }

def runMids (s : MidState) : List MidEvent → MidState
  | [] => s
  | e :: rest => runMids (midStep s e) rest

/-- The shutdown flush at the end of `BiliCrawler.run`:
`remaining_mids = self.user_mids - self.saved_mids;
update_pending_mids(remaining_mids)`. -/
def shutdownPendingFile (s : MidState) : Option (List String) :=
  update_pending_mids (s.user_mids.filter fun m => decide (¬ m ∈ s.saved_mids))

theorem addMid_nodup (l : List String) (m : String) (h : l.Nodup) : (addMid l m).Nodup := by
  unfold addMid
  split
  · exact h
  · rename_i hnm
    simp [List.nodup_append, h, hnm]

theorem runMids_user_nodup (evs : List MidEvent) :
    ∀ s : MidState, s.user_mids.Nodup → (runMids s evs).user_mids.Nodup := by
  induction evs with
  | nil => intro s h; exact h
  | cons e rest ih =>
    intro s h
    cases e with
    | observe m => exact ih _ (addMid_nodup _ _ h)
    | emit m => exact ih _ h

/-- C9: after any run, the pending file is exactly the set of observed user
ids minus the emitted ones, one id per line with no duplicates; when that
difference is empty the file is absent. -/
theorem pending_file_exact (evs : List MidEvent) (s0 : MidState)
    (h0 : s0.user_mids.Nodup) :
    (shutdownPendingFile (runMids s0 evs) = none ↔
      ∀ m ∈ (runMids s0 evs).user_mids, m ∈ (runMids s0 evs).saved_mids) ∧
    (∀ l, shutdownPendingFile (runMids s0 evs) = some l →
      l.Nodup ∧ ∀ m, (m ∈ l ↔
        m ∈ (runMids s0 evs).user_mids ∧ ¬ m ∈ (runMids s0 evs).saved_mids)) := by
  have hnd : (runMids s0 evs).user_mids.Nodup := runMids_user_nodup evs s0 h0
  constructor
  · unfold shutdownPendingFile update_pending_mids
    constructor
    · intro h m hm
      by_cases hsaved : m ∈ (runMids s0 evs).saved_mids
      · exact hsaved
      · exfalso
        split at h
        · rename_i hemp
          rw [List.isEmpty_iff] at hemp
          have : m ∈ (runMids s0 evs).user_mids.filter
              fun m => decide (¬ m ∈ (runMids s0 evs).saved_mids) := by
            rw [List.mem_filter]
            exact ⟨hm, by simpa using hsaved⟩
          rw [hemp] at this
          simp at this
        · simp at h
    · intro h
      rw [if_pos]
      rw [List.isEmpty_iff, List.filter_eq_nil_iff]
      intro m hm
      simp [h m hm]
  · intro l hl
    unfold shutdownPendingFile update_pending_mids at hl
    split at hl
    · simp at hl
    · have hleq : l = (runMids s0 evs).user_mids.filter
          fun m => decide (¬ m ∈ (runMids s0 evs).saved_mids) :=
        (Option.some_inj.mp hl).symm
      subst hleq
      refine ⟨List.Nodup.filter _ hnd, ?_⟩
      intro m
      rw [List.mem_filter]
      simp

/-- Closed instance of `pending_file_exact`: three observed, one emitted. -/
theorem pending_file_exact_witness :
    (([] : List String).Nodup) ∧
    shutdownPendingFile (runMids ⟨[], []⟩
        [.observe "1", .observe "2", .observe "1", .emit "2"]) = some ["1"] ∧
    (∀ m, m ∈ ["1"] ↔
      m ∈ (runMids (⟨[], []⟩ : MidState)
          [.observe "1", .observe "2", .observe "1", .emit "2"]).user_mids ∧
      ¬ m ∈ (runMids (⟨[], []⟩ : MidState)
          [.observe "1", .observe "2", .observe "1", .emit "2"]).saved_mids) :=
  ⟨List.nodup_nil, by decide,
    ((pending_file_exact [.observe "1", .observe "2", .observe "1", .emit "2"]
        ⟨[], []⟩ List.nodup_nil).2 ["1"] (by decide)).2⟩

/-! ## API endpoints and retry wrapper (`spider/api.py`) -/

/-- The fields of the `{code, message, data, …}` response envelope read by
the six endpoint functions (one superset structure; each endpoint reads only
its own fields).  `Option` marks fields read with a `.get` default. -/
structure ApiResponse where
  code : Int
  message : Option String
  result : List VideoRec
  numPages : Nat
  aid : Nat
  video : VideoRec
  card : AccountRec
  replies : Option (List Reply)
  next_offset : Option String
  is_end : Option Bool
  count : Nat
deriving DecidableEq

/-- The error string an endpoint reports for an application error:
`data.get('message', 'Unknown error')`. -/
def ApiResponse.errMsg (r : ApiResponse) : String := r.message.getD "Unknown error"

/-- `search_videos` response handling (the pure part after `.json()`). -/
def search_videos_handle (r : ApiResponse) : List VideoRec × Nat × Option String :=
  if r.code ≠ 0 then ([], 0, some r.errMsg)
  else (r.result, r.numPages, none)

/-- `get_video_aid` response handling. -/
def get_video_aid_handle (r : ApiResponse) : Option Nat × Option String :=
  if r.code = 0 then (some r.aid, none)
  else (none, some r.errMsg)

/-- `get_video_detail` response handling. -/
def get_video_detail_handle (r : ApiResponse) : Option VideoRec × Option String :=
  if r.code = 0 then (some r.video, none)
  else (none, some r.errMsg)

/-- `get_user_card` response handling. -/
def get_user_card_handle (r : ApiResponse) : Option AccountRec × Option String :=
  if r.code = 0 then (some r.card, none)
  else (none, some r.errMsg)

/-- `get_main_comments` response handling: `replies or []`, next cursor from
`data.cursor.pagination_reply.next_offset` (default `""`), `is_end` from
`data.cursor.is_end` (default `True`), forced to `True` when `next_offset`
is empty. -/
def get_main_comments_handle (r : ApiResponse) :
    List Reply × String × Bool × Option String :=
  if r.code ≠ 0 then ([], "", true, some r.errMsg)
  else
    let replies := r.replies.getD []
    let next_cursor := r.next_offset.getD ""
    let is_end0 := r.is_end.getD true
    (replies, next_cursor, if next_cursor = "" then true else is_end0, none)

/-- `get_reply_comments` response handling. -/
def get_reply_comments_handle (r : ApiResponse) : List Reply × Nat × Option String :=
  if r.code ≠ 0 then ([], 0, some r.errMsg)
  else (r.replies.getD [], r.count, none)

/-- Branches of `_get_error_return`, one per wrapped function name. -/
def get_error_return_search (e : String) : List VideoRec × Nat × Option String :=
  ([], 0, some e)

def get_error_return_aid (e : String) : Option Nat × Option String := (none, some e)

def get_error_return_detail (e : String) : Option VideoRec × Option String := (none, some e)

def get_error_return_card (e : String) : Option AccountRec × Option String := (none, some e)

def get_error_return_main (e : String) : List Reply × String × Bool × Option String :=
  ([], "", true, some e)

def get_error_return_reply (e : String) : List Reply × Nat × Option String := ([], 0, some e)

/-- One attempt of a wrapped call: a transport exception (with `str(e)`) or
a parsed response. -/
inductive Attempt where
  | exc (msg : String)
  | resp (r : ApiResponse)
deriving DecidableEq

/-- The `retry_with_backoff` loop over a script of attempts (one entry per
loop iteration, so a script of length `max_retries + 1`).  `errOf` reads the
error slot `result[-1]`; `errorReturn` is `_get_error_return` for the
wrapped function; the `String` argument carries `last_error`.  On the final
attempt an application-error result is returned as-is (`return result`)
while an exception goes through `_get_error_return`. -/
def retryRun {α : Type} (handle : ApiResponse → α) (errOf : α → Option String)
    (errorReturn : String → α) : List Attempt → String → α
  | [], lastErr => errorReturn lastErr
  | [a], _ =>
    match a with
    | .exc e => errorReturn e
    | .resp r => handle r
  | a :: rest, _ =>
    match a with
    | .exc e => retryRun handle errOf errorReturn rest e
    | .resp r =>
      match errOf (handle r) with
      | none => handle r
      | some e => retryRun handle errOf errorReturn rest e

/-- An attempt that fails: a transport exception, or an application error
(`code ≠ 0`). -/
def attemptFails : Attempt → Prop
  | .exc _ => True
  | .resp r => r.code ≠ 0

instance : DecidablePred attemptFails := by
  intro a
  cases a with
  | exc e => exact isTrue trivial
  | resp r => exact inferInstanceAs (Decidable (r.code ≠ 0))

/-- The error string an attempt contributes. -/
def attemptMsg : Attempt → String
  | .exc e => e
  | .resp r => r.errMsg

/-- The `last_error` value after a whole failing script. -/
def lastErrorOf : List Attempt → String → String
  | [], acc => acc
  | a :: rest, _ => lastErrorOf rest (attemptMsg a)

theorem lastErrorOf_ne_empty (script : List Attempt) :
    ∀ acc, script ≠ [] → (∀ a ∈ script, attemptMsg a ≠ "") →
      lastErrorOf script acc ≠ "" := by
  induction script with
  | nil => intro acc h _; exact absurd rfl h
  | cons a rest ih =>
    intro acc _ hmsg
    cases rest with
    | nil => exact hmsg a (List.mem_cons_self a [])
    | cons b t =>
      exact ih (attemptMsg a) (by simp)
        fun x hx => hmsg x (List.mem_cons_of_mem a hx)

/-- When every attempt fails, the wrapper returns the error shape built from
the last attempt's error string — provided the endpoint's own application
error result coincides with its `_get_error_return` shape. -/
theorem retryRun_all_fail {α : Type} (handle : ApiResponse → α)
    (errOf : α → Option String) (errorReturn : String → α)
    (hshape : ∀ r : ApiResponse, r.code ≠ 0 → handle r = errorReturn r.errMsg)
    (herr : ∀ r : ApiResponse, r.code ≠ 0 → errOf (handle r) = some r.errMsg)
    (script : List Attempt) :
    ∀ acc, script ≠ [] → (∀ a ∈ script, attemptFails a) →
      retryRun handle errOf errorReturn script acc
        = errorReturn (lastErrorOf script acc) := by
  induction script with
  | nil => intro acc h _; exact absurd rfl h
  | cons a rest ih =>
    intro acc _ hall
    cases rest with
    | nil =>
      cases a with
      | exc e => rfl
      | resp r =>
        have hr : r.code ≠ 0 := hall (.resp r) (List.mem_cons_self _ _)
        show handle r = errorReturn (lastErrorOf [] r.errMsg)
        exact hshape r hr
    | cons b t =>
      cases a with
      | exc e =>
        show retryRun handle errOf errorReturn (b :: t) e = _
        exact ih e (by simp) fun x hx => hall x (List.mem_cons_of_mem _ hx)
      | resp r =>
        have hr : r.code ≠ 0 := hall (.resp r) (List.mem_cons_self _ _)
        show (match errOf (handle r) with
          | none => handle r
          | some e => retryRun handle errOf errorReturn (b :: t) e)
          = errorReturn (lastErrorOf (b :: t) r.errMsg)
        rw [herr r hr]
        exact ih r.errMsg (by simp) fun x hx => hall x (List.mem_cons_of_mem _ hx)

/-- C7: when all `max_retries + 1` attempts end in a transport exception or
an application error (with non-empty error strings), each wrapped endpoint
returns its zero-value shape with the non-empty last error string in the
error slot: `([], 0, err)` for `search_videos` / `get_reply_comments`,
`(None, err)` for `get_video_aid` / `get_video_detail` / `get_user_card`,
and `([], "", True, err)` for `get_main_comments`. -/
theorem retry_exhaustion_shapes (script : List Attempt)
    (hne : script ≠ [])
    (hall : ∀ a ∈ script, attemptFails a)
    (hmsg : ∀ a ∈ script, attemptMsg a ≠ "") :
    ∃ e : String, e ≠ "" ∧
      retryRun search_videos_handle (fun t => t.2.2) get_error_return_search script ""
        = ([], 0, some e) ∧
      retryRun get_video_aid_handle (fun t => t.2) get_error_return_aid script ""
        = (none, some e) ∧
      retryRun get_video_detail_handle (fun t => t.2) get_error_return_detail script ""
        = (none, some e) ∧
      retryRun get_user_card_handle (fun t => t.2) get_error_return_card script ""
        = (none, some e) ∧
      retryRun get_main_comments_handle (fun t => t.2.2.2) get_error_return_main script ""
        = ([], "", true, some e) ∧
      retryRun get_reply_comments_handle (fun t => t.2.2) get_error_return_reply script ""
        = ([], 0, some e) := by
  refine ⟨lastErrorOf script "", lastErrorOf_ne_empty script "" hne hmsg, ?_, ?_, ?_, ?_, ?_, ?_⟩
  · exact retryRun_all_fail _ _ _
      (fun r hr => by simp [search_videos_handle, get_error_return_search, hr])
      (fun r hr => by simp [search_videos_handle, hr]) script "" hne hall
  · exact retryRun_all_fail _ _ _
      (fun r hr => by simp [get_video_aid_handle, get_error_return_aid, hr])
      (fun r hr => by simp [get_video_aid_handle, hr]) script "" hne hall
  · exact retryRun_all_fail _ _ _
      (fun r hr => by simp [get_video_detail_handle, get_error_return_detail, hr])
      (fun r hr => by simp [get_video_detail_handle, hr]) script "" hne hall
  · exact retryRun_all_fail _ _ _
      (fun r hr => by simp [get_user_card_handle, get_error_return_card, hr])
      (fun r hr => by simp [get_user_card_handle, hr]) script "" hne hall
  · exact retryRun_all_fail _ _ _
      (fun r hr => by simp [get_main_comments_handle, get_error_return_main, hr])
      (fun r hr => by simp [get_main_comments_handle, hr]) script "" hne hall
  · exact retryRun_all_fail _ _ _
      (fun r hr => by simp [get_reply_comments_handle, get_error_return_reply, hr])
      (fun r hr => by simp [get_reply_comments_handle, hr]) script "" hne hall

/-- Closed instance of `retry_exhaustion_shapes`: every attempt raises. -/
theorem retry_exhaustion_shapes_witness :
    (([Attempt.exc "timeout", Attempt.exc "reset"] : List Attempt) ≠ [] ∧
      (∀ a ∈ ([Attempt.exc "timeout", Attempt.exc "reset"] : List Attempt), attemptFails a) ∧
      (∀ a ∈ ([Attempt.exc "timeout", Attempt.exc "reset"] : List Attempt),
        attemptMsg a ≠ "")) ∧
    (∃ e : String, e ≠ "" ∧
      retryRun search_videos_handle (fun t => t.2.2) get_error_return_search
          [Attempt.exc "timeout", Attempt.exc "reset"] "" = ([], 0, some e) ∧
      retryRun get_video_aid_handle (fun t => t.2) get_error_return_aid
          [Attempt.exc "timeout", Attempt.exc "reset"] "" = (none, some e) ∧
      retryRun get_video_detail_handle (fun t => t.2) get_error_return_detail
          [Attempt.exc "timeout", Attempt.exc "reset"] "" = (none, some e) ∧
      retryRun get_user_card_handle (fun t => t.2) get_error_return_card
          [Attempt.exc "timeout", Attempt.exc "reset"] "" = (none, some e) ∧
      retryRun get_main_comments_handle (fun t => t.2.2.2) get_error_return_main
          [Attempt.exc "timeout", Attempt.exc "reset"] "" = ([], "", true, some e) ∧
      retryRun get_reply_comments_handle (fun t => t.2.2) get_error_return_reply
          [Attempt.exc "timeout", Attempt.exc "reset"] "" = ([], 0, some e)) :=
  ⟨⟨by decide, by decide, by decide⟩,
    retry_exhaustion_shapes [Attempt.exc "timeout", Attempt.exc "reset"]
      (by decide) (by decide) (by decide)⟩

/-- C8: on a successful (`code = 0`) `get_main_comments` response, the
returned `is_end` is `True` whenever the server's `next_offset` is empty or
absent and equals the server's `is_end` (default `True`) otherwise; the
returned cursor is exactly the server's `next_offset` string. -/
theorem main_comments_end_cursor (r : ApiResponse) (h0 : r.code = 0) :
    (r.next_offset.getD "" = "" → (get_main_comments_handle r).2.2.1 = true) ∧
    (∀ s, r.next_offset = some s → s ≠ "" →
      (get_main_comments_handle r).2.2.1 = r.is_end.getD true) ∧
    (∀ b, r.is_end = some b → ∀ s, r.next_offset = some s → s ≠ "" →
      (get_main_comments_handle r).2.2.1 = b) ∧
    ((get_main_comments_handle r).2.1 = r.next_offset.getD "") ∧
    ((get_main_comments_handle r).1 = r.replies.getD []) ∧
    ((get_main_comments_handle r).2.2.2 = none) := by
  have hne : ¬ r.code ≠ 0 := by simp [h0]
  refine ⟨?_, ?_, ?_, ?_, ?_, ?_⟩
  · intro h
    simp [get_main_comments_handle, hne, h]
  · intro s hs hsne
    simp [get_main_comments_handle, hne, hs, hsne]
  · intro b hb s hs hsne
    simp [get_main_comments_handle, hne, hb, hs, hsne]
  · simp [get_main_comments_handle, hne]
  · simp [get_main_comments_handle, hne]
  · simp [get_main_comments_handle, hne]

/-- Closed instance of `main_comments_end_cursor` at a concrete response. -/
theorem main_comments_end_cursor_witness :
    (get_main_comments_handle
        ⟨0, none, [], 0, 0, ⟨none⟩, ⟨none⟩, some [⟨1, 2, 3⟩], some "NEXT", some false, 0⟩).2.2.1
      = false ∧
    (get_main_comments_handle
        ⟨0, none, [], 0, 0, ⟨none⟩, ⟨none⟩, some [⟨1, 2, 3⟩], some "NEXT", some false, 0⟩).2.1
      = "NEXT" ∧
    (get_main_comments_handle
        ⟨0, none, [], 0, 0, ⟨none⟩, ⟨none⟩, some [], some "", some false, 0⟩).2.2.1
      = true :=
  ⟨((main_comments_end_cursor
        ⟨0, none, [], 0, 0, ⟨none⟩, ⟨none⟩, some [⟨1, 2, 3⟩], some "NEXT", some false, 0⟩
        rfl).2.2.1 false rfl "NEXT" rfl (by decide)),
    ((main_comments_end_cursor
        ⟨0, none, [], 0, 0, ⟨none⟩, ⟨none⟩, some [⟨1, 2, 3⟩], some "NEXT", some false, 0⟩
        rfl).2.2.2.1).trans (by decide),
    ((main_comments_end_cursor
        ⟨0, none, [], 0, 0, ⟨none⟩, ⟨none⟩, some [], some "", some false, 0⟩
        rfl).1 (by decide))⟩

/-! ## WBI signing vs. the transmitted URL (`spider/api.py`,
`get_main_comments`) -/

/-- Characters `urllib.parse.quote` never encodes regardless of `safe`:
letters, digits, `_.-~`. -/
def isAlwaysSafe (c : Char) : Bool :=
  c.isAlpha || c.isDigit || c == '_' || c == '.' || c == '-' || c == '~'

/-- Uppercase hex digit, `n < 16`. -/
def hexUpper (n : Nat) : Char :=
  if n < 10 then Char.ofNat (48 + n) else Char.ofNat (55 + n)

/-- `%XX` encoding of one ASCII character. -/
def percentEncodeChar (c : Char) : List Char :=
  ['%', hexUpper (c.toNat / 16), hexUpper (c.toNat % 16)]

/-- `urllib.parse.quote(s, safe=...)` on ASCII input: keep always-safe and
`safe` characters, percent-encode the rest. -/
def pythonQuote (safe : List Char) (s : String) : String :=
  ⟨(s.toList.map fun c =>
      if isAlwaysSafe c || safe.contains c then [c] else percentEncodeChar c).flatten⟩

/-- The `pagination_str` JSON built by `get_main_comments`:
`'\x7b"offset":"%s"\x7d' % cursor` when a cursor is present, else the empty-offset
form. -/
def paginationStr (cursor : String) : String :=
  if cursor ≠ "" then "\x7b\"offset\":\"" ++ cursor ++ "\"\x7d"
  else "\x7b\"offset\":\"\"\x7d"

/-- The encoding used in the signature string:
`urllib.parse.quote(pagination_str)` (default `safe='/'`). -/
def signPaginationEncoded (cursor : String) : String :=
  pythonQuote ['/'] (paginationStr cursor)

/-- The encoding placed in the transmitted URL:
`urllib.parse.quote(pagination_str, safe=':')`. -/
def wirePaginationEncoded (cursor : String) : String :=
  pythonQuote [':'] (paginationStr cursor)

/-- The string hashed for `w_rid` (before appending the mixin key): the
sorted parameter join built in `get_main_comments`, with `seek_rpid=`
included only on the first page. -/
def signQuery (oid : Nat) (cursor : String) (wts : Nat) : String :=
  if cursor ≠ "" then
    "mode=2&oid=" ++ toString oid ++ "&pagination_str=" ++ signPaginationEncoded cursor ++
      "&plat=1&type=1&web_location=1315875&wts=" ++ toString wts
  else
    "mode=2&oid=" ++ toString oid ++ "&pagination_str=" ++ signPaginationEncoded cursor ++
      "&plat=1&seek_rpid=&type=1&web_location=1315875&wts=" ++ toString wts

/-- The query string of the URL actually requested by `get_main_comments`
(the part after `?` in the hand-built f-string). -/
def wireQuery (oid : Nat) (cursor : String) (wts : Nat) (w_rid : String) : String :=
  if cursor ≠ "" then
    "oid=" ++ toString oid ++ "&type=1&mode=2&pagination_str=" ++
      wirePaginationEncoded cursor ++ "&plat=1&web_location=1315875&w_rid=" ++ w_rid ++
      "&wts=" ++ toString wts
  else
    "oid=" ++ toString oid ++ "&type=1&mode=2&pagination_str=" ++
      wirePaginationEncoded cursor ++ "&plat=1&seek_rpid=&web_location=1315875&w_rid=" ++
      w_rid ++ "&wts=" ++ toString wts

/-- C2: the string hashed for `w_rid` does not agree with the transmitted
query string.  On the first page the signature side encodes `pagination_str`
with `quote` (colon becomes `%3A`) while the URL side uses
`quote(..., safe=':')` (colon stays literal), so the two encodings of
`pagination_str` — and hence the signed string and the wire query — differ
at every call; shown here at `oid=100, cursor="", wts=1700000000`. -/
theorem sign_wire_pagination_mismatch :
    signPaginationEncoded "" = "%7B%22offset%22%3A%22%22%7D" ∧
    wirePaginationEncoded "" = "%7B%22offset%22:%22%22%7D" ∧
    signPaginationEncoded "" ≠ wirePaginationEncoded "" ∧
    signQuery 100 "" 1700000000 ≠ wireQuery 100 "" 1700000000 "w" := by
  refine ⟨by decide, by decide, by decide, by decide⟩

end BiliClaw
